import Mathlib

/-!
Verification of the two translation pipelines of this repository
(`tradutor_artigos.py`, the Document Translator, and `translate_url.py`,
the URL Article Translator) against their natural-language specification.

The Python code is shallowly embedded: pure logic (the per-paragraph loop,
response-field extraction, whitespace cleaning, output-path derivation) is
translated function by function; external effects (HTTP transport, the
chat-completion model, the file system) are oracle parameters, and file
writes are modelled as the values the pipeline would write.
-/

set_option maxRecDepth 4096

/-- Python truthiness test for an optional string: `None` and `""` are falsy.
Used for `if not args.key`, `if not text`, `if region:` and similar checks. -/
def pyFalsy : Option String → Bool
  | none => true
  | some s => s = ""

/-- Whitespace in the sense of Python `str.strip()` (ASCII whitespace plus the
common Unicode line/space separators this code can meet). -/
def pyIsSpace (c : Char) : Bool :=
  c = ' ' || c = '\t' || c = '\n' || c = '\r' ||
  c = Char.ofNat 0x0b || c = Char.ofNat 0x0c ||
  c = Char.ofNat 0x1c || c = Char.ofNat 0x1d || c = Char.ofNat 0x1e ||
  c = Char.ofNat 0x1f || c = Char.ofNat 0x85 || c = Char.ofNat 0xa0 ||
  c = Char.ofNat 0x2028 || c = Char.ofNat 0x2029

/-- Python `str.strip()` on a character list: drop whitespace at both ends. -/
def pyStrip (cs : List Char) : List Char :=
  ((cs.dropWhile pyIsSpace).reverse.dropWhile pyIsSpace).reverse

/-- Python `str.strip()` on a `String`. -/
def pyStripStr (s : String) : String :=
  ⟨pyStrip s.data⟩

/-- Drop every occurrence of the character `c` at both ends, as Python
`str.strip(c)` / `str.rstrip(c)` do for a one-character argument. -/
def pyStripChar (c : Char) (cs : List Char) : List Char :=
  ((cs.dropWhile (· = c)).reverse.dropWhile (· = c)).reverse

/-- Python `str.rstrip(c)` for a one-character argument. -/
def pyRstripChar (c : Char) (cs : List Char) : List Char :=
  (cs.reverse.dropWhile (· = c)).reverse

/-- Python `str.replace(a, b)` for one-character arguments. -/
def pyReplaceChar (a b : Char) (cs : List Char) : List Char :=
  cs.map (fun c => if c = a then b else c)

/-- JSON values, the shape `resp.json()` yields in `translate_text`.
Objects are association lists of string keys (first binding wins; the API
responses in scope carry no duplicate keys). -/
inductive Json where
  | null
  | bool (b : Bool)
  | num (n : Int)
  | str (s : String)
  | arr (xs : List Json)
  | obj (fields : List (String × Json))

/-- The Python exceptions that can escape the embedded fragments of
`tradutor_artigos.py`: `requests.RequestException` (timeouts, the
`raise_for_status` on a non-2xx reply, an undecodable body),
`KeyError` / `IndexError` (caught, logged as an unexpected API response and
re-raised by `translate_text`), `TypeError` (subscripting a value of the
wrong type, which propagates uncaught), and `FileNotFoundError`
(raised by `translate_document` for a missing input file). -/
inductive PyExc where
  | requestException
  | keyError
  | indexError
  | typeError
  | fileNotFoundError
deriving DecidableEq

/-- The spec's NetworkError class: transport failure of the HTTP call. -/
def PyExc.isNetworkError : PyExc → Bool
  | .requestException => true
  | _ => false

/-- The spec's ParsingError class (an unexpected response shape): every
exception raised while extracting `data[0]['translations'][0]['text']`
from the decoded response — a missing index, a missing key, or a component
of the wrong type. -/
def PyExc.isParsingError : PyExc → Bool
  | .keyError => true
  | .indexError => true
  | .typeError => true
  | _ => false

/-- Python subscripting `j[i]` with an integer index, as it behaves on the
values `resp.json()` can produce: lists index or raise `IndexError`, strings
index to one-character strings, dicts decoded from JSON have only string
keys so an integer subscript raises `KeyError`, everything else raises
`TypeError`. -/
def pyIndexNat (j : Json) (i : Nat) : Except PyExc Json :=
  match j with
  | .arr xs =>
    match xs.get? i with
    | some v => .ok v
    | none => .error .indexError
  | .str s =>
    match s.data.get? i with
    | some c => .ok (.str ⟨[c]⟩)
    | none => .error .indexError
  | .obj _ => .error .keyError
  | _ => .error .typeError

/-- Python subscripting `j[k]` with a string key: dicts look the key up or
raise `KeyError`; lists, strings and scalars raise `TypeError`. -/
def pyKey (j : Json) (k : String) : Except PyExc Json :=
  match j with
  | .obj fields =>
    match fields.lookup k with
    | some v => .ok v
    | none => .error .keyError
  | _ => .error .typeError

/-- The response-field extraction `data[0]['translations'][0]['text']`
performed by `translate_text` on the decoded JSON body: the four subscripts
in sequence, the first exception aborting the rest. -/
def extractTranslation (body : Json) : Except PyExc Json :=
  match pyIndexNat body 0 with
  | .error e => .error e
  | .ok a =>
    match pyKey a "translations" with
    | .error e => .error e
    | .ok b =>
      match pyIndexNat b 0 with
      | .error e => .error e
      | .ok c => pyKey c "text"

/-- One HTTP POST to the `/translate` route as `translate_text` builds it:
the constructed URL (`endpoint.rstrip('/') + "/translate"`), the
subscription key and optional region headers, the fixed source language
`'en'`, the target language and the single source string of the body. -/
structure TransRequest where
  url : String
  key : String
  region : Option String
  fromLang : String
  toLang : String
  text : String

/-- Outcome of one HTTP POST: either a `requests.RequestException`
(timeout, non-2xx status via `raise_for_status`, undecodable body) or a
2xx reply whose body decoded to the given JSON value. -/
inductive NetResult where
  | transportError
  | ok (body : Json)

/-- The request `translate_text` sends for a given non-empty text: the region
header is only attached when the region value is truthy. -/
def mkRequest (endpoint key : String) (region : Option String)
    (toLang text : String) : TransRequest :=
  ⟨⟨pyRstripChar '/' endpoint.data⟩ ++ "/translate", key,
    if pyFalsy region then none else region, "en", toLang, text⟩

/-- `translate_text` of `tradutor_artigos.py`. Empty text returns `""` at
once with no request made; otherwise one POST is sent and the reply's
`data[0]['translations'][0]['text']` field is returned. The second
component is the list of requests actually sent over the network. -/
def translate_text (text toLang endpoint key : String) (region : Option String)
    (net : TransRequest → NetResult) : Except PyExc Json × List TransRequest :=
  if text = "" then (.ok (.str ""), [])
  else
    let req := mkRequest endpoint key region toLang text
    match net req with
    | .transportError => (.error .requestException, [req])
    | .ok body => (extractTranslation body, [req])

/-- The paragraph loop of `translate_document`: a stripped-empty paragraph
appends `""` without calling the API, any other paragraph appends the value
`translate_text` returns for its stripped text; the first exception aborts
the whole loop. -/
def translateParas (toLang endpoint key : String) (region : Option String)
    (net : TransRequest → NetResult) : List String → Except PyExc (List Json)
  | [] => .ok []
  | p :: ps =>
    if pyStripStr p = "" then
      match translateParas toLang endpoint key region net ps with
      | .error e => .error e
      | .ok rest => .ok (.str "" :: rest)
    else
      match (translate_text (pyStripStr p) toLang endpoint key region net).1 with
      | .error e => .error e
      | .ok v =>
        match translateParas toLang endpoint key region net ps with
        | .error e => .error e
        | .ok rest => .ok (v :: rest)

/-- Index of the last occurrence of `c` in `cs` (Python `str.rfind`),
`none` when absent. -/
def rfindChar (c : Char) (cs : List Char) : Option Nat :=
  match cs.reverse.findIdx? (· = c) with
  | some i => some (cs.length - 1 - i)
  | none => none

/-- Python `os.path.splitext` on a POSIX path: split at the last dot of the
final component, except that the leading dots of that component never start
an extension. -/
def pySplitext (p : String) : String × String :=
  let cs := p.data
  let sepIndex : Int := match rfindChar '/' cs with | some i => (i : Int) | none => -1
  let dotIndex : Int := match rfindChar '.' cs with | some i => (i : Int) | none => -1
  if sepIndex < dotIndex then
    let nameStart : Nat := (sepIndex + 1).toNat
    let lead := (cs.drop nameStart).take (dotIndex.toNat - nameStart)
    if lead.all (· = '.') then (p, "")
    else (⟨cs.take dotIndex.toNat⟩, ⟨cs.drop dotIndex.toNat⟩)
  else (p, "")

/-- The output path `translate_document` derives when none is supplied:
the target-language code inserted before the input's extension. -/
def derivedDocPath (inputPath toLang : String) : String :=
  (pySplitext inputPath).1 ++ "_" ++ toLang ++ (pySplitext inputPath).2

/-- The `.docx` file `translate_document` saves: its path and its paragraphs
(the values appended to the fresh output document, in order). -/
structure SavedDoc where
  path : String
  contents : List Json

/-- `translate_document` of `tradutor_artigos.py`. The input document is the
list of its paragraphs' texts (what `Document(input_path).paragraphs[i].text`
yields); `fileExists` is the `os.path.isfile` oracle. The first component is
the function's result (the saved path, or the exception raised); the second
is the file the run wrote, `none` when the run raised before `save`. -/
def translate_document (inputPath toLang endpoint key : String)
    (region : Option String) (outputPath : Option String)
    (fileExists : Bool) (docParas : List String)
    (net : TransRequest → NetResult) : Except PyExc String × Option SavedDoc :=
  if fileExists = false then (.error .fileNotFoundError, none)
  else
    match translateParas toLang endpoint key region net docParas with
    | .error e => (.error e, none)
    | .ok out =>
      let outPath := if pyFalsy outputPath then derivedDocPath inputPath toLang
                     else outputPath.getD ""
      (.ok outPath, some ⟨outPath, out⟩)

/-- Result of one run of a CLI `main`: the process exit code and the file
the run wrote (path and contents), if any. -/
structure DocxRun where
  exit : Nat
  saved : Option SavedDoc

/-- `main` of `tradutor_artigos.py` after argument parsing: a falsy key or
endpoint exits 1 before any work; any exception from `translate_document`
exits 1; otherwise the process finishes with exit code 0. -/
def docx_main (inputPath toLang : String) (endpoint key region : Option String)
    (outputPath : Option String) (fileExists : Bool) (docParas : List String)
    (net : TransRequest → NetResult) : DocxRun :=
  if pyFalsy key then ⟨1, none⟩
  else if pyFalsy endpoint then ⟨1, none⟩
  else
    match translate_document inputPath toLang (endpoint.getD "") (key.getD "")
        region outputPath fileExists docParas net with
    | (.ok _, saved) => ⟨0, saved⟩
    | (.error _, saved) => ⟨1, saved⟩

/-- Python line boundaries recognised by `str.splitlines` (`\r\n` is treated
as a single boundary by the splitting function below). -/
def isLineBoundary (c : Char) : Bool :=
  c = '\n' || c = '\r' || c = Char.ofNat 0x0b || c = Char.ofNat 0x0c ||
  c = Char.ofNat 0x1c || c = Char.ofNat 0x1d || c = Char.ofNat 0x1e ||
  c = Char.ofNat 0x85 || c = Char.ofNat 0x2028 || c = Char.ofNat 0x2029

/-- Worker for `pySplitlines`, carrying the current line in reverse. The
pair `\r\n` counts as a single boundary; a boundary at the very end of the
input closes the last line without opening an empty one, as Python does. -/
def pySplitlinesAux (cs acc : List Char) : List (List Char) :=
  match cs with
  | [] => [acc.reverse]
  | c :: rest =>
    if isLineBoundary c then
      match rest with
      | [] => [acc.reverse]
      | d :: rest2 =>
        if c = '\r' ∧ d = '\n' then
          acc.reverse ::
            (if rest2.isEmpty then [] else pySplitlinesAux rest2 [])
        else acc.reverse :: pySplitlinesAux (d :: rest2) []
    else pySplitlinesAux rest (c :: acc)

/-- Python `str.splitlines()`. -/
def pySplitlines (cs : List Char) : List (List Char) :=
  if cs.isEmpty then [] else pySplitlinesAux cs []

/-- Worker for Python `str.split('  ')`: split at each non-overlapping
occurrence of two consecutive spaces, scanning left to right. -/
def splitDoubleSpaceAux : List Char → List Char → List (List Char)
  | [], acc => [acc.reverse]
  | ' ' :: ' ' :: rest, acc => acc.reverse :: splitDoubleSpaceAux rest []
  | c :: rest, acc => splitDoubleSpaceAux rest (c :: acc)

/-- Python `line.split('  ')`. -/
def splitDoubleSpace (cs : List Char) : List (List Char) :=
  splitDoubleSpaceAux cs []

/-- Python `'\n'.join`. -/
def pyJoinNl : List (List Char) → List Char
  | [] => []
  | [p] => p
  | p :: ps => p ++ '\n' :: pyJoinNl ps

/-- The pieces the cleanup of `extract_text_from_url` keeps: every line of
the page text stripped, split on double spaces, the pieces stripped again
and the empty ones discarded. -/
def limparParts (text : List Char) : List (List Char) :=
  ((((pySplitlines text).map pyStrip).map
      (fun l => (splitDoubleSpace l).map pyStrip)).flatten).filter
    (fun p => !p.isEmpty)

/-- The cleanup loop of `extract_text_from_url`: strip every line of the
page text, split each on double spaces, strip the pieces, and join the
non-empty pieces with single newlines. -/
def limpar (text : List Char) : List Char :=
  pyJoinNl (limparParts text)

/-- Worker for `splitOnNl`, Python `s.split('\n')`. -/
def splitOnNlAux : List Char → List Char → List (List Char)
  | [], acc => [acc.reverse]
  | c :: rest, acc =>
    if c = '\n' then acc.reverse :: splitOnNlAux rest []
    else splitOnNlAux rest (c :: acc)

/-- Python `s.split('\n')`. -/
def splitOnNl (cs : List Char) : List (List Char) :=
  splitOnNlAux cs []

/-- The newline-separated segments of a text: its lines. The empty text has
no lines (and so, in particular, no empty ones). -/
def textLines (cs : List Char) : List (List Char) :=
  if cs.isEmpty then [] else splitOnNl cs

/-- Outcome of `requests.get(url)`: an exception (timeout and kin), or a
reply with a status code and the page's visible text — the string
`soup.get_text(separator=' ')` produces after the script/style/noscript
elements are decomposed. The HTML parsing itself belongs to BeautifulSoup,
outside this repository; the cleanup applied to its output is embedded
faithfully in `limpar`. -/
inductive FetchOutcome where
  | exc
  | ok (status : Nat) (pageText : String)

/-- The failures of the URL pipeline: a `requests` exception during the GET,
the `RuntimeError` raised on a non-200 status (the spec's FetchError), the
`RuntimeError` raised on missing Azure OpenAI configuration, and a failed
model invocation (the spec's TranslationServiceError). -/
inductive UrlErr where
  | requestExc
  | fetchError (status : Nat)
  | configError
  | invokeError
deriving DecidableEq

/-- `extract_text_from_url` of `translate_url.py`: fetch the page, require
status 200, and clean the extracted text. -/
def extract_text_from_url (fetch : String → FetchOutcome) (url : String) :
    Except UrlErr String :=
  match fetch url with
  | .exc => .error .requestExc
  | .ok status pageText =>
    if status ≠ 200 then .error (.fetchError status)
    else .ok ⟨limpar pageText.data⟩

/-- One invocation of the chat-completion endpoint as `translate_article`
builds it: the client configuration and the two role-tagged messages. -/
structure ChatCall where
  azureEndpoint : String
  apiKey : String
  apiVersion : String
  deployment : String
  messages : List (String × String)

/-- Outcome of `client.invoke(messages)`: any exception (auth, quota,
transport), or a response whose `content` is the given string. -/
inductive InvokeOutcome where
  | failure
  | success (content : String)

/-- The fixed system message of `translate_article`. -/
def urlSystemPrompt : String :=
  "Você atua como tradutor de textos. Responda apenas com o conteúdo traduzido em Markdown."

/-- The user message of `translate_article`, embedding the target language
and the full cleaned text. -/
def urlUserPrompt (targetLanguage text : String) : String :=
  "Traduza o texto abaixo para " ++ targetLanguage ++
    " e responda em Markdown.\n\n" ++ text

/-- `translate_article` of `translate_url.py`: missing configuration raises
before any invocation; otherwise the endpoint is invoked exactly once with
the two messages and the response content is returned verbatim. The second
component counts the invocations made. -/
def translate_article (text targetLanguage : String)
    (azureEndpoint azureKey deployment : Option String) (apiVersion : String)
    (invoke : ChatCall → InvokeOutcome) : Except UrlErr String × Nat :=
  if pyFalsy azureEndpoint || pyFalsy azureKey || pyFalsy deployment then
    (.error .configError, 0)
  else
    let call : ChatCall :=
      ⟨azureEndpoint.getD "", azureKey.getD "", apiVersion, deployment.getD "",
        [("system", urlSystemPrompt), ("user", urlUserPrompt targetLanguage text)]⟩
    match invoke call with
    | .failure => (.error .invokeError, 1)
    | .success content => (.ok content, 1)

/-- Characters allowed after the first letter of a URL scheme. -/
def isSchemeChar (c : Char) : Bool :=
  c.isAlphanum || c = '+' || c = '-' || c = '.'

/-- The components of `urllib.parse.urlparse` used by `filename_from_url`. -/
structure UrlParts where
  scheme : String
  netloc : String
  path : String
  query : String
  fragment : String

/-- `urllib.parse.urlparse` restricted to what `filename_from_url` reads: a
scheme before the first colon when well formed, a network location after
`//` up to the next `/`, `?` or `#`, then the fragment after `#` and the
query after `?`. (The `;params` split of the last path segment is not
modelled; it never fires on the URLs in scope.) -/
def pyUrlparse (url : String) : UrlParts :=
  let cs := url.data
  let pre := cs.takeWhile (· ≠ ':')
  let schemeOk := pre.length < cs.length && !pre.isEmpty &&
    (match pre with | c :: _ => c.isAlpha | [] => false) && pre.all isSchemeChar
  let scheme := if schemeOk then pre.map Char.toLower else []
  let rest0 := if schemeOk then cs.drop (pre.length + 1) else cs
  let hasNetloc := match rest0 with | '/' :: '/' :: _ => true | _ => false
  let netloc :=
    if hasNetloc then
      (rest0.drop 2).takeWhile (fun c => c ≠ '/' && c ≠ '?' && c ≠ '#')
    else []
  let rest1 := if hasNetloc then (rest0.drop 2).drop netloc.length else rest0
  let beforeFrag := rest1.takeWhile (· ≠ '#')
  let fragment :=
    if beforeFrag.length < rest1.length then rest1.drop (beforeFrag.length + 1) else []
  let path := beforeFrag.takeWhile (· ≠ '?')
  let query :=
    if path.length < beforeFrag.length then beforeFrag.drop (path.length + 1) else []
  ⟨⟨scheme⟩, ⟨netloc⟩, ⟨path⟩, ⟨query⟩, ⟨fragment⟩⟩

/-- `filename_from_url` of `translate_url.py`: the host with colons replaced
by underscores, the path stripped of outer slashes with inner slashes
replaced by underscores (or `index` when that leaves nothing), and the
language code, joined with underscores, with extension `.md`. -/
def filename_from_url (url lang : String) : String :=
  let parsed := pyUrlparse url
  let host : String := ⟨pyReplaceChar ':' '_' parsed.netloc.data⟩
  let stripped : String := ⟨pyReplaceChar '/' '_' (pyStripChar '/' parsed.path.data)⟩
  let pathPart := if stripped = "" then "index" else stripped
  host ++ "_" ++ pathPart ++ "_" ++ lang ++ ".md"

/-- Result of one run of the URL CLI: exit code, the file written (path and
content) if any, the path printed to standard output if any, and the number
of chat-completion invocations made. -/
structure UrlRun where
  exit : Nat
  written : Option (String × String)
  printed : Option String
  translatorCalls : Nat

/-- `main` of `translate_url.py` after argument parsing: extract the text,
exit 1 when extraction fails or yields nothing, translate, write the
translation to the explicit or derived path, print that path, and finish
with exit code 0; any exception exits 1 with nothing written. -/
def url_main (url toLang : String) (endpoint key deployment : Option String)
    (apiVersion : String) (outputPath : Option String)
    (fetch : String → FetchOutcome) (invoke : ChatCall → InvokeOutcome) : UrlRun :=
  match extract_text_from_url fetch url with
  | .error _ => ⟨1, none, none, 0⟩
  | .ok text =>
    if text = "" then ⟨1, none, none, 0⟩
    else
      match translate_article text toLang endpoint key deployment apiVersion invoke with
      | (.error _, n) => ⟨1, none, none, n⟩
      | (.ok translated, n) =>
        let outPath := if pyFalsy outputPath then filename_from_url url toLang
                       else outputPath.getD ""
        ⟨0, some (outPath, translated), some outPath, n⟩

/-- A translation endpoint reply in the documented wire shape
`[ { 'translations': [ { 'text': s } ] } ]`. -/
def wireBody (s : String) : Json :=
  .arr [.obj [("translations", .arr [.obj [("text", .str s)]])]]

/-- A mocked translation endpoint: always replies with status 2xx and the
documented wire shape, translating via the fixed mapping `f`. -/
def mockNet (f : String → String) : TransRequest → NetResult :=
  fun req => .ok (wireBody (f req.text))

/-- A fixed mapping used as a mocked endpoint: `Hello` translates to `Olá`. -/
def helloMap : String → String :=
  fun s => if s = "Hello" then "Olá" else s

/-- A translation endpoint whose transport always fails. -/
def netDown : TransRequest → NetResult :=
  fun _ => .transportError

/-- A fetch oracle answering 404 to every URL. -/
def fetch404 : String → FetchOutcome :=
  fun _ => .ok 404 "ignored"

/-- A fetch oracle answering 200 with a page that has no text. -/
def fetchBlank : String → FetchOutcome :=
  fun _ => .ok 200 ""

/-- A fetch oracle answering 200 with the page text `Hello`. -/
def fetchHello : String → FetchOutcome :=
  fun _ => .ok 200 "Hello"

/-- A fetch oracle answering 200 with a page text that cleans to two lines. -/
def fetchTwoWords : String → FetchOutcome :=
  fun _ => .ok 200 " Hello  world "

/-- A chat-completion oracle whose response content is empty. -/
def invokeEmpty : ChatCall → InvokeOutcome :=
  fun _ => .success ""

/-- A chat-completion oracle answering `Olá` to every call. -/
def invokeOla : ChatCall → InvokeOutcome :=
  fun _ => .success "Olá"

/-- A successful paragraph loop yields one output paragraph per input
paragraph. -/
theorem translateParas_ok_length (toLang endpoint key : String)
    (region : Option String) (net : TransRequest → NetResult) :
    ∀ (ps : List String) (out : List Json),
      translateParas toLang endpoint key region net ps = .ok out →
      out.length = ps.length := by
  intro ps
  induction ps with
  | nil =>
    intro out h
    simp only [translateParas] at h
    cases h
    rfl
  | cons p ps ih =>
    intro out h
    simp only [translateParas] at h
    by_cases hp : pyStripStr p = ""
    · rw [if_pos hp] at h
      cases htl : translateParas toLang endpoint key region net ps with
      | error e => rw [htl] at h; simp at h
      | ok rest =>
        rw [htl] at h
        cases h
        simp [ih rest htl]
    · rw [if_neg hp] at h
      cases htt : (translate_text (pyStripStr p) toLang endpoint key region net).1 with
      | error e => rw [htt] at h; simp at h
      | ok v =>
        rw [htt] at h
        cases htl : translateParas toLang endpoint key region net ps with
        | error e => rw [htl] at h; simp at h
        | ok rest =>
          rw [htl] at h
          cases h
          simp [ih rest htl]

/-- A successful paragraph loop maps each stripped-empty input paragraph to
an empty output paragraph at the same index, and each other paragraph to
exactly the value `translate_text` returns for its stripped text. -/
theorem translateParas_ok_get (toLang endpoint key : String)
    (region : Option String) (net : TransRequest → NetResult) :
    ∀ (ps : List String) (out : List Json),
      translateParas toLang endpoint key region net ps = .ok out →
      ∀ (i : Nat) (hi : i < ps.length) (ho : i < out.length),
        (pyStripStr (ps.get ⟨i, hi⟩) = "" → out.get ⟨i, ho⟩ = .str "") ∧
        (pyStripStr (ps.get ⟨i, hi⟩) ≠ "" →
          (translate_text (pyStripStr (ps.get ⟨i, hi⟩)) toLang endpoint key region net).1
            = .ok (out.get ⟨i, ho⟩)) := by
  intro ps
  induction ps with
  | nil =>
    intro out h i hi ho
    exact absurd hi (by simp)
  | cons p ps ih =>
    intro out h i hi ho
    simp only [translateParas] at h
    by_cases hp : pyStripStr p = ""
    · rw [if_pos hp] at h
      cases htl : translateParas toLang endpoint key region net ps with
      | error e => rw [htl] at h; simp at h
      | ok rest =>
        rw [htl] at h
        cases h
        cases i with
        | zero => exact ⟨fun _ => rfl, fun hne => absurd hp hne⟩
        | succ j =>
          exact ih rest htl j
            (by simp only [List.length_cons] at hi; omega)
            (by simp only [List.length_cons] at ho; omega)
    · rw [if_neg hp] at h
      cases htt : (translate_text (pyStripStr p) toLang endpoint key region net).1 with
      | error e => rw [htt] at h; simp at h
      | ok v =>
        rw [htt] at h
        cases htl : translateParas toLang endpoint key region net ps with
        | error e => rw [htl] at h; simp at h
        | ok rest =>
          rw [htl] at h
          cases h
          cases i with
          | zero => exact ⟨fun he => absurd he hp, fun _ => htt⟩
          | succ j =>
            exact ih rest htl j
              (by simp only [List.length_cons] at hi; omega)
              (by simp only [List.length_cons] at ho; omega)

/-- Inversion for a run of `translate_document` that saved a file: the
paragraph loop succeeded with exactly the saved contents, and the saved
path is the explicit one, or the derived one when none was supplied. -/
theorem translate_document_saved_inv (inputPath toLang endpoint key : String)
    (region : Option String) (outputPath : Option String) (fileExists : Bool)
    (docParas : List String) (net : TransRequest → NetResult) (saved : SavedDoc) :
    (translate_document inputPath toLang endpoint key region outputPath
        fileExists docParas net).2 = some saved →
    translateParas toLang endpoint key region net docParas = .ok saved.contents ∧
    saved.path = (if pyFalsy outputPath then derivedDocPath inputPath toLang
                  else outputPath.getD "") := by
  intro h
  unfold translate_document at h
  by_cases hf : fileExists = false
  · rw [if_pos hf] at h
    simp at h
  · rw [if_neg hf] at h
    cases htl : translateParas toLang endpoint key region net docParas with
    | error e => rw [htl] at h; simp at h
    | ok out =>
      rw [htl] at h
      simp only [Option.some.injEq] at h
      subst h
      exact ⟨rfl, rfl⟩

/-- C1: for every input document, when every translation call succeeds (the
run saves an output document), the saved document has exactly as many
paragraphs as the input document. -/
theorem C1_output_paragraph_count (inputPath toLang endpoint key : String)
    (region : Option String) (outputPath : Option String) (fileExists : Bool)
    (docParas : List String) (net : TransRequest → NetResult) (saved : SavedDoc)
    (h : (translate_document inputPath toLang endpoint key region outputPath
        fileExists docParas net).2 = some saved) :
    saved.contents.length = docParas.length :=
  translateParas_ok_length toLang endpoint key region net docParas saved.contents
    (translate_document_saved_inv inputPath toLang endpoint key region outputPath
      fileExists docParas net saved h).1

/-- C1's witness: a concrete three-paragraph document (with a blank second
paragraph) run against a mocked endpoint saves a three-paragraph document. -/
theorem C1_witness :
    (translate_document "report.docx" "pt-br" "https://ep" "k" none none true
        ["Hello", "", "World"] (mockNet helloMap)).2
      = some ⟨"report_pt-br.docx", [.str "Olá", .str "", .str "World"]⟩ ∧
    (SavedDoc.contents
        ⟨"report_pt-br.docx", [.str "Olá", .str "", .str "World"]⟩).length
      = (["Hello", "", "World"] : List String).length :=
  ⟨by rfl,
    C1_output_paragraph_count "report.docx" "pt-br" "https://ep" "k" none none true
      ["Hello", "", "World"] (mockNet helloMap)
      ⟨"report_pt-br.docx", [.str "Olá", .str "", .str "World"]⟩ (by rfl)⟩

/-- C9: for the empty input string `translate_text` returns the empty
string immediately — the result is the same for every target language,
endpoint, key, region and network behaviour, and the list of requests made
over the network is empty. -/
theorem C9_empty_text_no_request (toLang endpoint key : String)
    (region : Option String) (net : TransRequest → NetResult) :
    translate_text "" toLang endpoint key region net = (.ok (.str ""), []) := by
  rfl

/-- C2: a saved run of `translate_document` preserves order and blank
positions — a stripped-empty input paragraph yields the empty output
paragraph at the same index, any other yields exactly the value the
translation endpoint returned for its stripped text — and against a mocked
endpoint with a fixed mapping, translating `Hello` to `pt-br` yields the
mapped string exactly. -/
theorem C2_paragraph_mapping (inputPath toLang endpoint key : String)
    (region : Option String) (outputPath : Option String) (fileExists : Bool)
    (docParas : List String) (net : TransRequest → NetResult) (saved : SavedDoc)
    (h : (translate_document inputPath toLang endpoint key region outputPath
        fileExists docParas net).2 = some saved) :
    (∀ (i : Nat) (hi : i < docParas.length) (ho : i < saved.contents.length),
      (pyStripStr (docParas.get ⟨i, hi⟩) = "" →
        saved.contents.get ⟨i, ho⟩ = .str "") ∧
      (pyStripStr (docParas.get ⟨i, hi⟩) ≠ "" →
        (translate_text (pyStripStr (docParas.get ⟨i, hi⟩)) toLang endpoint key
            region net).1 = .ok (saved.contents.get ⟨i, ho⟩))) ∧
    (∀ f : String → String,
      (translate_text "Hello" "pt-br" endpoint key region (mockNet f)).1
        = .ok (.str (f "Hello"))) := by
  refine ⟨fun i hi ho => ?_, fun f => ?_⟩
  · exact translateParas_ok_get toLang endpoint key region net docParas
      saved.contents
      (translate_document_saved_inv inputPath toLang endpoint key region
        outputPath fileExists docParas net saved h).1 i hi ho
  · rfl

/-- C2's witness: a one-paragraph document `Hello` translated to `pt-br`
against the mocked fixed mapping yields exactly the mapped string `Olá`. -/
theorem C2_witness :
    pyStripStr "Hello" ≠ "" ∧
    (translate_text (pyStripStr "Hello") "pt-br" "https://ep" "k" none
        (mockNet helloMap)).1 = .ok (.str "Olá") :=
  ⟨by decide,
    ((C2_paragraph_mapping "report.docx" "pt-br" "https://ep" "k" none none true
        ["Hello"] (mockNet helloMap) ⟨"report_pt-br.docx", [.str "Olá"]⟩
        (by rfl)).1 0 (by decide) (by decide)).2 (by decide)⟩

/-- C3: with no explicit output path, the Document Translator inserts the
target-language code before the input's extension (`report.docx` with
`pt-br` yields `report_pt-br.docx`) and the URL Translator derives the name
from the URL's host and path plus the language code
(`https://a.com/x/y` with `pt-br` yields `a.com_x_y_pt-br.md`). -/
theorem C3_output_path_derivation :
    derivedDocPath "report.docx" "pt-br" = "report_pt-br.docx" ∧
    filename_from_url "https://a.com/x/y" "pt-br" = "a.com_x_y_pt-br.md" ∧
    (∀ (inputPath toLang endpoint key : String) (region : Option String)
        (fileExists : Bool) (docParas : List String)
        (net : TransRequest → NetResult) (saved : SavedDoc),
      (translate_document inputPath toLang endpoint key region none fileExists
          docParas net).2 = some saved →
      saved.path = derivedDocPath inputPath toLang) ∧
    (∀ (url toLang : String) (endpoint key deployment : Option String)
        (apiVersion : String) (fetch : String → FetchOutcome)
        (invoke : ChatCall → InvokeOutcome) (p c : String),
      (url_main url toLang endpoint key deployment apiVersion none fetch
          invoke).written = some (p, c) →
      p = filename_from_url url toLang) := by
  refine ⟨by rfl, by rfl, ?_, ?_⟩
  · intro inputPath toLang endpoint key region fileExists docParas net saved h
    exact (translate_document_saved_inv inputPath toLang endpoint key region
      none fileExists docParas net saved h).2
  · intro url toLang endpoint key deployment apiVersion fetch invoke p c h
    unfold url_main at h
    cases hx : extract_text_from_url fetch url with
    | error e => rw [hx] at h; simp at h
    | ok text =>
      rw [hx] at h
      dsimp only at h
      by_cases ht : text = ""
      · rw [if_pos ht] at h; simp at h
      · rw [if_neg ht] at h
        cases hta : translate_article text toLang endpoint key deployment
            apiVersion invoke with
        | mk res n =>
          cases res with
          | error e => rw [hta] at h; simp at h
          | ok translated =>
            rw [hta] at h
            dsimp only at h
            simp only [Option.some.injEq, Prod.mk.injEq] at h
            exact h.1.symm

/-- C3's witness: a concrete saved run with no explicit output path lands at
the derived path `report_pt-br.docx`. -/
theorem C3_witness :
    (translate_document "report.docx" "pt-br" "https://ep" "k" none none true
        ["Hello"] (mockNet helloMap)).2
      = some ⟨"report_pt-br.docx", [.str "Olá"]⟩ ∧
    (SavedDoc.path ⟨"report_pt-br.docx", [.str "Olá"]⟩)
      = derivedDocPath "report.docx" "pt-br" :=
  ⟨by rfl,
    C3_output_path_derivation.2.2.1 "report.docx" "pt-br" "https://ep" "k" none
      true ["Hello"] (mockNet helloMap) ⟨"report_pt-br.docx", [.str "Olá"]⟩
      (by rfl)⟩

/-- When text extraction raises, the URL run exits 1, writes nothing,
prints nothing and never invokes the model. -/
theorem url_main_extract_error (url toLang : String)
    (endpoint key deployment : Option String) (apiVersion : String)
    (outputPath : Option String) (fetch : String → FetchOutcome)
    (invoke : ChatCall → InvokeOutcome) (e : UrlErr)
    (hx : extract_text_from_url fetch url = .error e) :
    url_main url toLang endpoint key deployment apiVersion outputPath fetch
      invoke = ⟨1, none, none, 0⟩ := by
  unfold url_main
  rw [hx]

/-- When text extraction yields the empty string, the URL run exits 1,
writes nothing, prints nothing and never invokes the model. -/
theorem url_main_empty_text (url toLang : String)
    (endpoint key deployment : Option String) (apiVersion : String)
    (outputPath : Option String) (fetch : String → FetchOutcome)
    (invoke : ChatCall → InvokeOutcome)
    (hx : extract_text_from_url fetch url = .ok "") :
    url_main url toLang endpoint key deployment apiVersion outputPath fetch
      invoke = ⟨1, none, none, 0⟩ := by
  unfold url_main
  rw [hx]
  rfl

/-- When extraction yields non-empty text and translation fails, the URL
run exits 1 and writes nothing. -/
theorem url_main_translate_error (url toLang : String)
    (endpoint key deployment : Option String) (apiVersion : String)
    (outputPath : Option String) (fetch : String → FetchOutcome)
    (invoke : ChatCall → InvokeOutcome) (text : String) (e : UrlErr) (n : Nat)
    (hx : extract_text_from_url fetch url = .ok text) (ht : text ≠ "")
    (hta : translate_article text toLang endpoint key deployment apiVersion
        invoke = (.error e, n)) :
    url_main url toLang endpoint key deployment apiVersion outputPath fetch
      invoke = ⟨1, none, none, n⟩ := by
  unfold url_main
  rw [hx]
  dsimp only
  rw [if_neg ht, hta]

/-- When extraction yields non-empty text and translation succeeds, the URL
run exits 0, writes the translation to the explicit or derived path, and
prints that path. -/
theorem url_main_ok (url toLang : String)
    (endpoint key deployment : Option String) (apiVersion : String)
    (outputPath : Option String) (fetch : String → FetchOutcome)
    (invoke : ChatCall → InvokeOutcome) (text content : String) (n : Nat)
    (hx : extract_text_from_url fetch url = .ok text) (ht : text ≠ "")
    (hta : translate_article text toLang endpoint key deployment apiVersion
        invoke = (.ok content, n)) :
    url_main url toLang endpoint key deployment apiVersion outputPath fetch
      invoke =
      ⟨0,
        some ((if pyFalsy outputPath then filename_from_url url toLang
               else outputPath.getD ""), content),
        some (if pyFalsy outputPath then filename_from_url url toLang
              else outputPath.getD ""), n⟩ := by
  unfold url_main
  rw [hx]
  dsimp only
  rw [if_neg ht, hta]

/-- C5: a fetch that returns a non-success status makes the URL pipeline
fail with the FetchError for that status; the run exits 1, never invokes
the translation endpoint and writes no output file. -/
theorem C5_fetch_failure (url toLang : String)
    (endpoint key deployment : Option String) (apiVersion : String)
    (outputPath : Option String) (fetch : String → FetchOutcome)
    (invoke : ChatCall → InvokeOutcome) (status : Nat) (pageText : String)
    (hf : fetch url = .ok status pageText) (hs : status ≠ 200) :
    extract_text_from_url fetch url = .error (.fetchError status) ∧
    url_main url toLang endpoint key deployment apiVersion outputPath fetch
      invoke = ⟨1, none, none, 0⟩ := by
  have hx : extract_text_from_url fetch url = .error (.fetchError status) := by
    unfold extract_text_from_url
    rw [hf]
    dsimp only
    rw [if_pos hs]
  exact ⟨hx, url_main_extract_error url toLang endpoint key deployment
    apiVersion outputPath fetch invoke _ hx⟩

/-- C5's witness: a 404 fetch yields the FetchError and a run that exits 1
with no model invocation and no output file. -/
theorem C5_witness :
    extract_text_from_url fetch404 "https://a.com/x/y"
      = .error (.fetchError 404) ∧
    url_main "https://a.com/x/y" "pt-br" (some "e") (some "k") (some "d")
      "2023-05-15" none fetch404 invokeOla = ⟨1, none, none, 0⟩ :=
  C5_fetch_failure "https://a.com/x/y" "pt-br" (some "e") (some "k") (some "d")
    "2023-05-15" none fetch404 invokeOla 404 "ignored" (by rfl) (by decide)

/-- C6: when the fetched page's extracted and cleaned text is empty, the
URL pipeline exits 1 without invoking the translation endpoint and without
writing an output file. -/
theorem C6_empty_extraction (url toLang : String)
    (endpoint key deployment : Option String) (apiVersion : String)
    (outputPath : Option String) (fetch : String → FetchOutcome)
    (invoke : ChatCall → InvokeOutcome) (pageText : String)
    (hf : fetch url = .ok 200 pageText)
    (he : (⟨limpar pageText.data⟩ : String) = "") :
    extract_text_from_url fetch url = .ok "" ∧
    url_main url toLang endpoint key deployment apiVersion outputPath fetch
      invoke = ⟨1, none, none, 0⟩ := by
  have hx : extract_text_from_url fetch url = .ok "" := by
    unfold extract_text_from_url
    rw [hf]
    dsimp only
    rw [if_neg (by decide : ¬(200 ≠ 200)), he]
  exact ⟨hx, url_main_empty_text url toLang endpoint key deployment apiVersion
    outputPath fetch invoke hx⟩

/-- C6's witness: a 200 page with no text cleans to the empty string and the
run exits 1 with no invocation and no file. -/
theorem C6_witness :
    extract_text_from_url fetchBlank "https://a.com/x/y" = .ok "" ∧
    url_main "https://a.com/x/y" "pt-br" (some "e") (some "k") (some "d")
      "2023-05-15" none fetchBlank invokeOla = ⟨1, none, none, 0⟩ :=
  C6_empty_extraction "https://a.com/x/y" "pt-br" (some "e") (some "k")
    (some "d") "2023-05-15" none fetchBlank invokeOla "" (by rfl) (by rfl)

/-- C7's counterexample: extraction succeeds (a 200 page cleaning to the
non-empty text `Hello`), yet the run completes with exit 0 and writes an
output file whose content is the empty string, because the model's response
content — used verbatim — is empty. The claimed invariant "output is
non-empty whenever input extraction succeeds" therefore fails. -/
theorem C7_counterexample :
    extract_text_from_url fetchHello "https://a.com/x/y" = .ok "Hello" ∧
    (url_main "https://a.com/x/y" "pt-br" (some "e") (some "k") (some "d")
        "2023-05-15" none fetchHello invokeEmpty).written
      = some ("a.com_x_y_pt-br.md", "") ∧
    (url_main "https://a.com/x/y" "pt-br" (some "e") (some "k") (some "d")
        "2023-05-15" none fetchHello invokeEmpty).exit = 0 :=
  ⟨rfl, rfl, rfl⟩

/-- C7 as amended: whenever input extraction succeeds with non-empty text
and the model invocation succeeds, the run writes the output file and its
content is exactly the invocation's returned text — so it is non-empty
exactly when the model's response is. -/
theorem C7_output_content_verbatim (url toLang : String)
    (endpoint key deployment : Option String) (apiVersion : String)
    (outputPath : Option String) (fetch : String → FetchOutcome)
    (invoke : ChatCall → InvokeOutcome) (text content : String) (n : Nat)
    (hx : extract_text_from_url fetch url = .ok text) (ht : text ≠ "")
    (hta : translate_article text toLang endpoint key deployment apiVersion
        invoke = (.ok content, n)) :
    (url_main url toLang endpoint key deployment apiVersion outputPath fetch
        invoke).written
      = some ((if pyFalsy outputPath then filename_from_url url toLang
               else outputPath.getD ""), content) ∧
    (content ≠ "" →
      ∀ pc : String × String,
        (url_main url toLang endpoint key deployment apiVersion outputPath
            fetch invoke).written = some pc → pc.2 ≠ "") := by
  have hrun := url_main_ok url toLang endpoint key deployment apiVersion
    outputPath fetch invoke text content n hx ht hta
  rw [hrun]
  refine ⟨rfl, fun hc pc hw => ?_⟩
  simp only [Option.some.injEq] at hw
  rw [← hw]
  exact hc

/-- C7's witness: a successful extraction and a model answering `Olá` write
that content verbatim to the derived output path. -/
theorem C7_witness :
    extract_text_from_url fetchHello "https://a.com/x/y" = .ok "Hello" ∧
    (url_main "https://a.com/x/y" "pt-br" (some "e") (some "k") (some "d")
        "2023-05-15" none fetchHello invokeOla).written
      = some (filename_from_url "https://a.com/x/y" "pt-br", "Olá") :=
  ⟨by rfl,
    (C7_output_content_verbatim "https://a.com/x/y" "pt-br" (some "e")
      (some "k") (some "d") "2023-05-15" none fetchHello invokeOla "Hello"
      "Olá" 1 (by rfl) (by decide) (by rfl)).1⟩

/-- Every exception an integer subscript raises is in the ParsingError
class. -/
theorem pyIndexNat_error_class (j : Json) (i : Nat) (e : PyExc) :
    pyIndexNat j i = .error e → e.isParsingError = true := by
  cases j with
  | null => intro h; cases h; rfl
  | bool b => intro h; cases h; rfl
  | num n => intro h; cases h; rfl
  | str s =>
    dsimp only [pyIndexNat]
    cases hg : s.data.get? i with
    | some c => intro h; exact absurd h (by simp)
    | none => intro h; cases h; rfl
  | arr xs =>
    dsimp only [pyIndexNat]
    cases hg : xs.get? i with
    | some v => intro h; exact absurd h (by simp)
    | none => intro h; cases h; rfl
  | obj fields => intro h; cases h; rfl

/-- Every exception a string subscript raises is in the ParsingError
class. -/
theorem pyKey_error_class (j : Json) (k : String) (e : PyExc) :
    pyKey j k = .error e → e.isParsingError = true := by
  cases j with
  | null => intro h; cases h; rfl
  | bool b => intro h; cases h; rfl
  | num n => intro h; cases h; rfl
  | str s => intro h; cases h; rfl
  | arr xs => intro h; cases h; rfl
  | obj fields =>
    dsimp only [pyKey]
    cases hg : fields.lookup k with
    | some v => intro h; exact absurd h (by simp)
    | none => intro h; cases h; rfl

/-- Every exception the response-field extraction raises is in the
ParsingError class — in particular it is never the NetworkError. -/
theorem extractTranslation_error_class (body : Json) (e : PyExc) :
    extractTranslation body = .error e → e.isParsingError = true := by
  dsimp only [extractTranslation]
  cases h1 : pyIndexNat body 0 with
  | error e1 =>
    intro h
    cases h
    exact pyIndexNat_error_class body 0 e h1
  | ok a =>
    dsimp only
    cases h2 : pyKey a "translations" with
    | error e2 =>
      intro h
      cases h
      exact pyKey_error_class a "translations" e h2
    | ok b =>
      dsimp only
      cases h3 : pyIndexNat b 0 with
      | error e3 =>
        intro h
        cases h
        exact pyIndexNat_error_class b 0 e h3
      | ok c =>
        dsimp only
        exact pyKey_error_class c "text" e

/-- A run of `translate_document` that raised saved nothing: the save only
happens after the whole loop has succeeded. -/
theorem translate_document_error_no_save (inputPath toLang endpoint key : String)
    (region : Option String) (outputPath : Option String) (fileExists : Bool)
    (docParas : List String) (net : TransRequest → NetResult) (e : PyExc)
    (h : (translate_document inputPath toLang endpoint key region outputPath
        fileExists docParas net).1 = .error e) :
    (translate_document inputPath toLang endpoint key region outputPath
        fileExists docParas net).2 = none := by
  unfold translate_document at h ⊢
  by_cases hf : fileExists = false
  · rw [if_pos hf]
  · rw [if_neg hf] at h ⊢
    cases htl : translateParas toLang endpoint key region net docParas with
    | error e2 => rfl
    | ok out =>
      rw [htl] at h
      dsimp only at h
      simp at h

/-- C4: in the Document Translator a transport failure on a per-paragraph
call fails with the NetworkError, and a malformed or missing response field
fails with a ParsingError; exactly one request is sent per non-empty
paragraph (no retry), and a run that raised saved no output document. -/
theorem C4_error_classification (text toLang endpoint key : String)
    (region : Option String) (net : TransRequest → NetResult)
    (ht : text ≠ "") :
    (net (mkRequest endpoint key region toLang text) = .transportError →
      (translate_text text toLang endpoint key region net).1
        = .error .requestException ∧
      PyExc.isNetworkError .requestException = true) ∧
    (∀ (body : Json) (e : PyExc),
      net (mkRequest endpoint key region toLang text) = .ok body →
      extractTranslation body = .error e →
      (translate_text text toLang endpoint key region net).1 = .error e ∧
      e.isParsingError = true) ∧
    (translate_text text toLang endpoint key region net).2
      = [mkRequest endpoint key region toLang text] ∧
    (∀ (inputPath : String) (outputPath : Option String) (fileExists : Bool)
        (docParas : List String) (e : PyExc),
      (translate_document inputPath toLang endpoint key region outputPath
          fileExists docParas net).1 = .error e →
      (translate_document inputPath toLang endpoint key region outputPath
          fileExists docParas net).2 = none) := by
  refine ⟨fun hnet => ?_, fun body e hnet hex => ?_, ?_,
    fun inputPath outputPath fileExists docParas e h =>
      translate_document_error_no_save inputPath toLang endpoint key region
        outputPath fileExists docParas net e h⟩
  · unfold translate_text
    rw [if_neg ht]
    dsimp only
    rw [hnet]
    exact ⟨rfl, rfl⟩
  · unfold translate_text
    rw [if_neg ht]
    dsimp only
    rw [hnet]
    exact ⟨hex, extractTranslation_error_class body e hex⟩
  · unfold translate_text
    rw [if_neg ht]
    dsimp only
    cases hnet : net (mkRequest endpoint key region toLang text) with
    | transportError => rfl
    | ok body => rfl

/-- C4's witness: with a dead transport the paragraph call fails with the
NetworkError; with a malformed reply (the JSON number `42`) it fails with
an exception of the ParsingError class. -/
theorem C4_witness :
    ("Hi" : String) ≠ "" ∧
    (translate_text "Hi" "pt-br" "https://ep" "k" none netDown).1
      = .error .requestException ∧
    (translate_text "Hi" "pt-br" "https://ep" "k" none
        (fun _ => .ok (.num 42))).1 = .error .typeError ∧
    PyExc.isParsingError .typeError = true :=
  ⟨by decide,
    ((C4_error_classification "Hi" "pt-br" "https://ep" "k" none netDown
        (by decide)).1 (by rfl)).1,
    ((C4_error_classification "Hi" "pt-br" "https://ep" "k" none
        (fun _ => .ok (.num 42)) (by decide)).2.1 (.num 42) .typeError
        (by rfl) (by rfl)).1,
    by rfl⟩

/-- C8: both CLIs exit 1 on missing configuration or on any failure and
complete with exit code 0 on success; the URL Translator's successful run
writes the output file and prints its path to standard output. -/
theorem C8_exit_codes :
    (∀ (inputPath toLang : String) (endpoint key region : Option String)
        (outputPath : Option String) (fileExists : Bool)
        (docParas : List String) (net : TransRequest → NetResult),
      ((pyFalsy key = true ∨ pyFalsy endpoint = true) →
        docx_main inputPath toLang endpoint key region outputPath fileExists
          docParas net = ⟨1, none⟩) ∧
      (pyFalsy key = false → pyFalsy endpoint = false →
        (∀ e : PyExc,
          (translate_document inputPath toLang (endpoint.getD "")
              (key.getD "") region outputPath fileExists docParas net).1
            = .error e →
          docx_main inputPath toLang endpoint key region outputPath fileExists
            docParas net = ⟨1, none⟩) ∧
        (∀ p : String,
          (translate_document inputPath toLang (endpoint.getD "")
              (key.getD "") region outputPath fileExists docParas net).1
            = .ok p →
          (docx_main inputPath toLang endpoint key region outputPath
            fileExists docParas net).exit = 0))) ∧
    (∀ (url toLang : String) (endpoint key deployment : Option String)
        (apiVersion : String) (outputPath : Option String)
        (fetch : String → FetchOutcome) (invoke : ChatCall → InvokeOutcome),
      ((url_main url toLang endpoint key deployment apiVersion outputPath
          fetch invoke).exit = 0 ∨
        (url_main url toLang endpoint key deployment apiVersion outputPath
          fetch invoke).exit = 1) ∧
      ((url_main url toLang endpoint key deployment apiVersion outputPath
          fetch invoke).exit = 0 →
        ∃ p c, (url_main url toLang endpoint key deployment apiVersion
            outputPath fetch invoke).written = some (p, c) ∧
          (url_main url toLang endpoint key deployment apiVersion outputPath
            fetch invoke).printed = some p) ∧
      ((url_main url toLang endpoint key deployment apiVersion outputPath
          fetch invoke).exit = 1 →
        (url_main url toLang endpoint key deployment apiVersion outputPath
          fetch invoke).written = none ∧
        (url_main url toLang endpoint key deployment apiVersion outputPath
          fetch invoke).printed = none)) := by
  constructor
  · intro inputPath toLang endpoint key region outputPath fileExists docParas net
    constructor
    · intro hmiss
      unfold docx_main
      by_cases hk : pyFalsy key = true
      · rw [if_pos hk]
      · rw [if_neg hk]
        have hend : pyFalsy endpoint = true := by
          cases hmiss with
          | inl h => exact absurd h hk
          | inr h => exact h
        rw [if_pos hend]
    · intro hk hend
      constructor
      · intro e he
        have hns := translate_document_error_no_save inputPath toLang
          (endpoint.getD "") (key.getD "") region outputPath fileExists
          docParas net e he
        unfold docx_main
        rw [if_neg (by simp [hk]), if_neg (by simp [hend])]
        cases htd : translate_document inputPath toLang (endpoint.getD "")
            (key.getD "") region outputPath fileExists docParas net with
        | mk res saved =>
          rw [htd] at he hns
          dsimp only at he hns
          cases res with
          | error e2 => dsimp only; rw [hns]
          | ok p => simp at he
      · intro p hp
        unfold docx_main
        rw [if_neg (by simp [hk]), if_neg (by simp [hend])]
        cases htd : translate_document inputPath toLang (endpoint.getD "")
            (key.getD "") region outputPath fileExists docParas net with
        | mk res saved =>
          rw [htd] at hp
          dsimp only at hp
          cases res with
          | error e2 => simp at hp
          | ok q => rfl
  · intro url toLang endpoint key deployment apiVersion outputPath fetch invoke
    cases hx : extract_text_from_url fetch url with
    | error e =>
      have hrun := url_main_extract_error url toLang endpoint key deployment
        apiVersion outputPath fetch invoke e hx
      rw [hrun]
      exact ⟨Or.inr rfl, fun h => absurd h (by simp), fun _ => ⟨rfl, rfl⟩⟩
    | ok text =>
      by_cases ht : text = ""
      · subst ht
        have hrun := url_main_empty_text url toLang endpoint key deployment
          apiVersion outputPath fetch invoke hx
        rw [hrun]
        exact ⟨Or.inr rfl, fun h => absurd h (by simp), fun _ => ⟨rfl, rfl⟩⟩
      · cases hta : translate_article text toLang endpoint key deployment
            apiVersion invoke with
        | mk res n =>
          cases res with
          | error e =>
            have hrun := url_main_translate_error url toLang endpoint key
              deployment apiVersion outputPath fetch invoke text e n hx ht hta
            rw [hrun]
            exact ⟨Or.inr rfl, fun h => absurd h (by simp), fun _ => ⟨rfl, rfl⟩⟩
          | ok content =>
            have hrun := url_main_ok url toLang endpoint key deployment
              apiVersion outputPath fetch invoke text content n hx ht hta
            rw [hrun]
            refine ⟨Or.inl rfl, fun _ => ?_, fun h => absurd h (by simp)⟩
            exact ⟨(if pyFalsy outputPath then filename_from_url url toLang
                else outputPath.getD ""), content, rfl, rfl⟩

/-- C8's witness: a run of the document CLI with no key exits 1 with no
save; a successful URL run exits 0, writes the file and prints its path. -/
theorem C8_witness :
    (pyFalsy (none : Option String) = true ∨
      pyFalsy (some "e" : Option String) = true) ∧
    docx_main "report.docx" "pt-br" (some "e") none none none true []
      netDown = ⟨1, none⟩ ∧
    ((url_main "https://a.com/x/y" "pt-br" (some "e") (some "k") (some "d")
        "2023-05-15" none fetchHello invokeOla).exit = 0 →
      ∃ p c, (url_main "https://a.com/x/y" "pt-br" (some "e") (some "k")
          (some "d") "2023-05-15" none fetchHello invokeOla).written
            = some (p, c) ∧
        (url_main "https://a.com/x/y" "pt-br" (some "e") (some "k") (some "d")
          "2023-05-15" none fetchHello invokeOla).printed = some p) :=
  ⟨Or.inl rfl,
    (C8_exit_codes.1 "report.docx" "pt-br" (some "e") none none none true []
      netDown).1 (Or.inl rfl),
    (C8_exit_codes.2 "https://a.com/x/y" "pt-br" (some "e") (some "k")
      (some "d") "2023-05-15" none fetchHello invokeOla).2.1⟩

/-- The head of a `dropWhile` never satisfies the dropped predicate. -/
theorem head_dropWhile_not (p : Char → Bool) :
    ∀ (l : List Char) (c : Char), (l.dropWhile p).head? = some c → p c = false := by
  intro l
  induction l with
  | nil => intro c h; simp at h
  | cons a l ih =>
    intro c h
    rw [List.dropWhile_cons] at h
    by_cases hp : p a = true
    · rw [if_pos hp] at h
      exact ih c h
    · rw [if_neg hp] at h
      simp only [List.head?_cons, Option.some.injEq] at h
      subst h
      cases hpa : p a with
      | true => exact absurd hpa hp
      | false => rfl

/-- A non-empty `dropWhile` keeps the last element of the list. -/
theorem getLast_dropWhile_eq (p : Char → Bool) :
    ∀ (l : List Char), l.dropWhile p ≠ [] →
      (l.dropWhile p).getLast? = l.getLast? := by
  intro l
  induction l with
  | nil => intro h; simp at h
  | cons a l ih =>
    intro h
    rw [List.dropWhile_cons] at h ⊢
    by_cases hp : p a = true
    · rw [if_pos hp] at h ⊢
      rw [ih h]
      cases l with
      | nil => exact absurd rfl h
      | cons b l2 => exact List.getLast?_cons_cons.symm
    · rw [if_neg hp]

/-- A stripped list has no leading whitespace. -/
theorem pyStrip_head_not (l : List Char) (c : Char) :
    (pyStrip l).head? = some c → pyIsSpace c = false := by
  intro h
  unfold pyStrip at h
  rw [List.head?_reverse] at h
  by_cases hz : (l.dropWhile pyIsSpace).reverse.dropWhile pyIsSpace = []
  · rw [hz] at h; simp at h
  · rw [getLast_dropWhile_eq pyIsSpace _ hz, List.getLast?_reverse] at h
    exact head_dropWhile_not pyIsSpace _ c h

/-- A stripped list has no trailing whitespace. -/
theorem pyStrip_getLast_not (l : List Char) (c : Char) :
    (pyStrip l).getLast? = some c → pyIsSpace c = false := by
  intro h
  unfold pyStrip at h
  rw [List.getLast?_reverse] at h
  exact head_dropWhile_not pyIsSpace _ c h

/-- Every character of a stripped list is a character of the list. -/
theorem mem_pyStrip (l : List Char) (c : Char) (h : c ∈ pyStrip l) : c ∈ l := by
  unfold pyStrip at h
  rw [List.mem_reverse] at h
  have h2 := (List.dropWhile_sublist _).subset h
  rw [List.mem_reverse] at h2
  exact (List.dropWhile_sublist _).subset h2

/-- Every character of a `split('  ')` piece comes from the split list or
the accumulator. -/
theorem mem_splitDoubleSpaceAux :
    ∀ (cs acc : List Char) (x : List Char), x ∈ splitDoubleSpaceAux cs acc →
      ∀ c ∈ x, c ∈ cs ∨ c ∈ acc := by
  intro cs acc
  induction cs, acc using splitDoubleSpaceAux.induct with
  | case1 acc =>
    intro x hx c hc
    simp only [splitDoubleSpaceAux, List.mem_singleton] at hx
    subst hx
    exact Or.inr (List.mem_reverse.mp hc)
  | case2 rest acc ih =>
    intro x hx c hc
    simp only [splitDoubleSpaceAux] at hx
    rcases List.mem_cons.mp hx with h1 | h2
    · subst h1
      exact Or.inr (List.mem_reverse.mp hc)
    · rcases ih x h2 c hc with h | h
      · exact Or.inl (List.mem_cons_of_mem _ (List.mem_cons_of_mem _ h))
      · exact absurd h (List.not_mem_nil c)
  | case3 c0 rest acc hguard ih =>
    intro x hx c hc
    rw [splitDoubleSpaceAux.eq_3 acc c0 rest hguard] at hx
    rcases ih x hx c hc with h | h
    · exact Or.inl (List.mem_cons_of_mem _ h)
    · rcases List.mem_cons.mp h with h1 | h2
      · exact Or.inl (h1 ▸ List.mem_cons_self c0 rest)
      · exact Or.inr h2

/-- Every character of every line `pySplitlinesAux` produces avoids the
line boundaries, provided the accumulator does. -/
theorem pySplitlinesAux_no_boundary :
    ∀ (cs acc : List Char), (∀ c ∈ acc, isLineBoundary c = false) →
      ∀ l ∈ pySplitlinesAux cs acc, ∀ c ∈ l, isLineBoundary c = false := by
  intro cs acc
  induction cs, acc using pySplitlinesAux.induct with
  | case1 acc =>
    intro hacc l hl c hc
    rw [pySplitlinesAux.eq_1] at hl
    simp only [List.mem_singleton] at hl
    subst hl
    exact hacc c (List.mem_reverse.mp hc)
  | case2 acc d hd =>
    intro hacc l hl c hc
    rw [pySplitlinesAux.eq_2, if_pos hd] at hl
    simp only [List.mem_singleton] at hl
    subst hl
    exact hacc c (List.mem_reverse.mp hc)
  | case3 acc d hd d1 rest2 hrn ih =>
    intro hacc l hl c hc
    rw [pySplitlinesAux.eq_3, if_pos hd, if_pos hrn] at hl
    rcases List.mem_cons.mp hl with h1 | h2
    · subst h1
      exact hacc c (List.mem_reverse.mp hc)
    · by_cases hre : rest2.isEmpty = true
      · rw [if_pos hre] at h2
        exact absurd h2 (List.not_mem_nil l)
      · rw [if_neg hre] at h2
        exact ih (fun c2 hc2 => absurd hc2 (List.not_mem_nil c2)) l h2 c hc
  | case4 acc d hd d1 rest2 hrn ih =>
    intro hacc l hl c hc
    rw [pySplitlinesAux.eq_3, if_pos hd, if_neg hrn] at hl
    rcases List.mem_cons.mp hl with h1 | h2
    · subst h1
      exact hacc c (List.mem_reverse.mp hc)
    · exact ih (fun c2 hc2 => absurd hc2 (List.not_mem_nil c2)) l h2 c hc
  | case5 acc d rest2 hd ih =>
    intro hacc l hl c hc
    rw [pySplitlinesAux.eq_def] at hl
    dsimp only at hl
    rw [if_neg hd] at hl
    refine ih ?_ l hl c hc
    intro c2 hc2
    rcases List.mem_cons.mp hc2 with h1 | h2
    · subst h1
      cases hdb : isLineBoundary c2 with
      | true => exact absurd hdb hd
      | false => rfl
    · exact hacc c2 h2

/-- Every piece the cleanup keeps is non-empty, is some stripped list, and
contains no line-boundary character. -/
theorem limparParts_spec (text : List Char) :
    ∀ q ∈ limparParts text,
      q ≠ [] ∧ (∃ x, q = pyStrip x) ∧ ∀ c ∈ q, isLineBoundary c = false := by
  intro q hq
  unfold limparParts at hq
  rw [List.mem_filter] at hq
  obtain ⟨hqf, hqe⟩ := hq
  rw [List.mem_flatten] at hqf
  obtain ⟨inner, hinner, hqin⟩ := hqf
  rw [List.mem_map] at hinner
  obtain ⟨l, hl, rfl⟩ := hinner
  rw [List.mem_map] at hqin
  obtain ⟨x, hx, rfl⟩ := hqin
  rw [List.mem_map] at hl
  obtain ⟨m, hm, rfl⟩ := hl
  refine ⟨?_, ⟨x, rfl⟩, ?_⟩
  · intro hnil
    rw [hnil] at hqe
    simp at hqe
  · intro c hc
    have hcx : c ∈ x := mem_pyStrip x c hc
    rcases mem_splitDoubleSpaceAux (pyStrip m) [] x hx c hcx with h | h
    · have hcm : c ∈ m := mem_pyStrip m c h
      unfold pySplitlines at hm
      by_cases hte : text.isEmpty = true
      · rw [if_pos hte] at hm
        exact absurd hm (List.not_mem_nil m)
      · rw [if_neg hte] at hm
        exact pySplitlinesAux_no_boundary text []
          (fun c2 hc2 => absurd hc2 (List.not_mem_nil c2)) m hm c hcm
    · exact absurd h (List.not_mem_nil c)

/-- Joining a non-empty list of non-empty pieces with newlines is
non-empty. -/
theorem pyJoinNl_ne_nil :
    ∀ (parts : List (List Char)), parts ≠ [] → (∀ q ∈ parts, q ≠ []) →
      pyJoinNl parts ≠ [] := by
  intro parts hne hall
  cases parts with
  | nil => exact absurd rfl hne
  | cons q ps =>
    cases ps with
    | nil => exact hall q (List.mem_cons_self q [])
    | cons q2 ps2 => simp [pyJoinNl]

/-- Splitting on newlines walks past a newline-free prefix, accumulating
it reversed. -/
theorem splitOnNlAux_append_free :
    ∀ (xs rest acc : List Char), (∀ c ∈ xs, ¬c = '\n') →
      splitOnNlAux (xs ++ rest) acc = splitOnNlAux rest (xs.reverse ++ acc) := by
  intro xs
  induction xs with
  | nil => intro rest acc hf; simp
  | cons x xs ih =>
    intro rest acc hf
    rw [List.cons_append, splitOnNlAux.eq_2,
      if_neg (hf x (List.mem_cons_self x xs)),
      ih rest (x :: acc) (fun c hc => hf c (List.mem_cons_of_mem x hc))]
    simp [List.reverse_cons, List.append_assoc]

/-- Splitting the newline-join of newline-free pieces recovers exactly the
pieces. -/
theorem splitOnNl_pyJoinNl :
    ∀ (parts : List (List Char)), parts ≠ [] →
      (∀ q ∈ parts, ∀ c ∈ q, ¬c = '\n') →
      splitOnNl (pyJoinNl parts) = parts := by
  intro parts
  induction parts with
  | nil => intro h _; exact absurd rfl h
  | cons q ps ih =>
    intro _ hfree
    cases ps with
    | nil =>
      have hf : ∀ c ∈ q, ¬c = '\n' := hfree q (List.mem_cons_self q [])
      have h1 := splitOnNlAux_append_free q [] [] hf
      rw [List.append_nil] at h1
      unfold splitOnNl
      rw [show pyJoinNl [q] = q from rfl, h1, splitOnNlAux.eq_1]
      simp
    | cons q2 ps2 =>
      have hf : ∀ c ∈ q, ¬c = '\n' := hfree q (List.mem_cons_self _ _)
      have h1 := splitOnNlAux_append_free q ('\n' :: pyJoinNl (q2 :: ps2)) [] hf
      unfold splitOnNl
      rw [show pyJoinNl (q :: q2 :: ps2) = q ++ '\n' :: pyJoinNl (q2 :: ps2)
          from rfl]
      rw [h1, splitOnNlAux.eq_2, if_pos rfl]
      rw [show splitOnNlAux (pyJoinNl (q2 :: ps2)) [] = q2 :: ps2 from
        ih (by simp) (fun p hp => hfree p (List.mem_cons_of_mem q hp))]
      simp

/-- C10: the cleaned text `extract_text_from_url` returns contains no empty
lines: every newline-separated segment of it is non-empty and has neither
leading nor trailing whitespace. -/
theorem C10_cleaned_text_lines (fetch : String → FetchOutcome) (url : String)
    (text : String)
    (hx : extract_text_from_url fetch url = .ok text) :
    ∀ seg ∈ textLines text.data,
      seg ≠ [] ∧
      (∀ c, seg.head? = some c → pyIsSpace c = false) ∧
      (∀ c, seg.getLast? = some c → pyIsSpace c = false) := by
  obtain ⟨raw, rfl⟩ : ∃ raw : List Char, text = ⟨limpar raw⟩ := by
    unfold extract_text_from_url at hx
    cases hfu : fetch url with
    | exc => rw [hfu] at hx; simp at hx
    | ok status pageText =>
      rw [hfu] at hx
      dsimp only at hx
      by_cases hs : status ≠ 200
      · rw [if_pos hs] at hx; simp at hx
      · rw [if_neg hs] at hx
        simp only [Except.ok.injEq] at hx
        exact ⟨pageText.data, hx.symm⟩
  intro seg hseg
  have hdata : (⟨limpar raw⟩ : String).data = limpar raw := rfl
  rw [hdata] at hseg
  unfold limpar at hseg
  cases hp : limparParts raw with
  | nil =>
    rw [hp] at hseg
    simp [textLines, pyJoinNl] at hseg
  | cons q qs =>
    rw [hp] at hseg
    have hspec := limparParts_spec raw
    rw [hp] at hspec
    have hne : (q :: qs) ≠ [] := by simp
    have hnonempty : ∀ r ∈ q :: qs, r ≠ [] := fun r hr => (hspec r hr).1
    have hfree : ∀ r ∈ q :: qs, ∀ c ∈ r, ¬c = '\n' := by
      intro r hr c hc hceq
      have hbc := (hspec r hr).2.2 c hc
      rw [hceq] at hbc
      exact absurd hbc (by decide)
    have hjoin_ne := pyJoinNl_ne_nil (q :: qs) hne hnonempty
    have hlines : textLines (pyJoinNl (q :: qs)) = q :: qs := by
      unfold textLines
      rw [if_neg (by simpa using hjoin_ne)]
      exact splitOnNl_pyJoinNl (q :: qs) hne hfree
    rw [hlines] at hseg
    obtain ⟨hne2, ⟨x, hxq⟩, _⟩ := hspec seg hseg
    refine ⟨hne2, ?_, ?_⟩
    · intro c hc
      rw [hxq] at hc
      exact pyStrip_head_not x c hc
    · intro c hc
      rw [hxq] at hc
      exact pyStrip_getLast_not x c hc

/-- C10's witness: a 200 page cleaning to `Hello` and `world` on two lines;
the segment `Hello` is one of the cleaned text's lines, non-empty with a
non-whitespace head. -/
theorem C10_witness :
    extract_text_from_url fetchTwoWords "https://u" = .ok "Hello\nworld" ∧
    "Hello".data ∈ textLines ("Hello\nworld" : String).data ∧
    pyIsSpace 'H' = false :=
  ⟨by rfl, by decide,
    (C10_cleaned_text_lines fetchTwoWords "https://u" "Hello\nworld" (by rfl)
      "Hello".data (by decide)).2.1 'H' (by rfl)⟩
